import Mathlib

/-!
# Shallow embedding of `src/inventory_system.py`

The Python module keeps one piece of mutable state, the module-level
dictionary `stock_data : Dict[str, int]`, and exposes the operations
`add_item`, `remove_item`, `get_qty`, `load_data`, `save_data`,
`print_data` and `check_low_items`.

Modelling choices:

* The dictionary is embedded as an association list `Store` in insertion
  order (a CPython dict preserves insertion order); all reachable states
  have pairwise distinct keys, which theorems take as a hypothesis where
  they need it.
* Python raises `ValueError`; here an operation returns
  `Except String α`.  Mutating operations return
  `Except String Unit × Store`: in the source every `raise` happens
  before any statement that touches `stock_data`, so on the error path
  the returned store is the input store.
* Dynamically typed arguments (`qty`, `threshold`) and parsed JSON
  values are embedded as `PyVal`.  `isinstance(v, int)` is `isInstInt`:
  it is true for `pyInt` and for `pyBool`, because `bool` is a subclass
  of `int` in Python, and a Python `True`/`False` behaves as `1`/`0` in
  the arithmetic the module performs.  Floats carry no payload because
  no operation of the module reads a float's value, only its type tag.
* `item.strip()` is `strip`, dropping leading and trailing whitespace
  characters (the ASCII whitespace relevant to the claims).
* File I/O: `load_data` takes `Option PyVal`, the parsed content of the
  file (`none` when the file does not exist); JSON object keys are
  strings by construction, so the `isinstance(k, str)` half of the
  source's check always holds in the model.  `save_data` returns the
  JSON value that `json.dump(stock_data, handle, indent=2,
  sort_keys=True)` writes: the store's entries sorted by key.
* Log lines and `logging` calls are side effects with no influence on
  the store and are not modelled; the timestamped string appended to the
  optional `logs` collector is likewise outside every claim.
-/

/-- An embedded Python/JSON value, as produced by `json.load` or passed
by a dynamically typed caller. -/
inductive PyVal where
  | pyNone
  | pyBool (b : Bool)
  | pyInt (n : Int)
  | pyFloat
  | pyStr (s : String)
  | pyList (xs : List PyVal)
  | pyDict (kvs : List (String × PyVal))

/-- `isinstance(v, int)` — true for `int` and for `bool`, since Python's
`bool` is a subclass of `int`. -/
def isInstInt : PyVal → Bool
  | .pyInt _ => true
  | .pyBool _ => true
  | _ => false

/-- The integer a value contributes to Python arithmetic (`True` is `1`,
`False` is `0`); only ever applied to values with `isInstInt`. -/
def toInt : PyVal → Int
  | .pyInt n => n
  | .pyBool b => if b then 1 else 0
  | _ => 0

/-- `str.strip()`: drop leading and trailing whitespace. -/
def strip (s : String) : String :=
  ⟨((s.data.dropWhile Char.isWhitespace).reverse.dropWhile
      Char.isWhitespace).reverse⟩

/-- The state of the module-level dictionary `stock_data`, in insertion
order. -/
abbrev Store := List (String × Int)

/-- `stock_data.get(k)` / `k in stock_data` lookup: the value at the
first matching key. -/
def dictGet : Store → String → Option Int
  | [], _ => none
  | kv :: rest, k => if kv.1 = k then some kv.2 else dictGet rest k

/-- `stock_data.get(k, d)`. -/
def dictGetD (st : Store) (k : String) (d : Int) : Int :=
  (dictGet st k).getD d

/-- `k in stock_data`. -/
def dictMem (st : Store) (k : String) : Bool :=
  (dictGet st k).isSome

/-- `stock_data[k] = v`: overwrite in place if the key is present,
append otherwise. -/
def dictSet : Store → String → Int → Store
  | [], k, v => [(k, v)]
  | kv :: rest, k, v =>
      if kv.1 = k then (k, v) :: rest else kv :: dictSet rest k v

/-- `del stock_data[k]`. -/
def dictDel (st : Store) (k : String) : Store :=
  st.filter (fun kv => kv.1 != k)

/-- `stock_data.update(kvs)`: assign each pair in order. -/
def dictUpdate (st : Store) : List (String × Int) → Store
  | [] => st
  | kv :: rest => dictUpdate (dictSet st kv.1 kv.2) rest

/-- Insert one pair into a list sorted by key (helper for `sortByKey`). -/
def insertByKey (x : String × Int) : Store → Store
  | [] => [x]
  | y :: ys => if x.1 ≤ y.1 then x :: y :: ys else y :: insertByKey x ys

/-- Sort a store's entries by key, as `sort_keys=True` does. -/
def sortByKey : Store → Store
  | [] => []
  | x :: xs => insertByKey x (sortByKey xs)

/-- `add_item(item, qty)` (lines 20–49).  Validates `item` nonempty
after strip and `qty` a nonnegative integer, then runs
`stock_data[item] = stock_data.get(item, 0) + qty`. -/
def add_item (st : Store) (item : String) (qty : PyVal) :
    Except String Unit × Store :=
  if strip item = "" then (.error "item must be a nonempty string", st)
  else if !(isInstInt qty) then (.error "qty must be an integer", st)
  else if toInt qty < 0 then (.error "qty must be nonnegative", st)
  else (.ok (), dictSet st item (dictGetD st item 0 + toInt qty))

/-- `remove_item(item, qty)` (lines 52–78).  Validates inputs, returns
silently when the item is absent, otherwise decrements and deletes the
entry when the new quantity is `≤ 0`. -/
def remove_item (st : Store) (item : String) (qty : PyVal) :
    Except String Unit × Store :=
  if strip item = "" then (.error "item must be a nonempty string", st)
  else if !(isInstInt qty) || toInt qty ≤ 0 then
    (.error "qty must be a positive integer", st)
  else if !(dictMem st item) then (.ok (), st)
  else
    let st1 := dictSet st item (dictGetD st item 0 - toInt qty)
    if dictGetD st1 item 0 ≤ 0 then (.ok (), dictDel st1 item)
    else (.ok (), st1)

/-- `get_qty(item)` (lines 81–94).  Pure read; the source never touches
`stock_data` beyond `stock_data.get(item, 0)`. -/
def get_qty (st : Store) (item : String) : Except String Int :=
  if strip item = "" then .error "item must be a nonempty string"
  else .ok (dictGetD st item 0)

/-- `load_data(file_path)` (lines 97–125), applied to the parsed file
content (`none` when `path.exists()` is false).  Validates the shape,
then `stock_data.clear()` followed by `stock_data.update(data)`. -/
def load_data (st : Store) (file : Option PyVal) :
    Except String Unit × Store :=
  match file with
  | none => (.ok (), [])
  | some data =>
    match data with
    | .pyDict kvs =>
        if kvs.all (fun kv => isInstInt kv.2) then
          (.ok (), dictUpdate [] (kvs.map (fun kv => (kv.1, toInt kv.2))))
        else (.error "File format must be str -> int mapping", st)
    | _ => (.error "Invalid file format: not an object", st)

/-- `save_data(file_path)` (lines 128–140): the JSON value written,
namely the store as an object with keys sorted ascending. -/
def save_data (st : Store) : PyVal :=
  .pyDict ((sortByKey st).map (fun kv => (kv.1, PyVal.pyInt kv.2)))

/-- `check_low_items(threshold)` (lines 152–166).  Validates the
threshold and returns the names of items with quantity strictly below
it, in store order; it never writes to `stock_data`. -/
def check_low_items (st : Store) (threshold : PyVal) :
    Except String (List String) :=
  if !(isInstInt threshold) || toInt threshold < 0 then
    .error "threshold must be nonnegative"
  else
    .ok ((st.filter (fun kv => kv.2 < toInt threshold)).map Prod.fst)

/-- An `Except` result is an error. -/
def isErr {α : Type} : Except String α → Bool
  | .error _ => true
  | .ok _ => false

/-- Every stored quantity is strictly positive (the §3 invariant). -/
abbrev posStore (st : Store) : Prop := ∀ kv ∈ st, 0 < kv.2

/-- Every stored quantity is nonnegative. -/
abbrev nonnegStore (st : Store) : Prop := ∀ kv ∈ st, 0 ≤ kv.2

/-- The keys of the store are pairwise distinct, as in any reachable
dictionary state. -/
abbrev nodupKeys (st : Store) : Prop := (st.map Prod.fst).Nodup

/-! ## Dictionary lemmas -/

theorem dictGet_dictSet_self (st : Store) (k : String) (v : Int) :
    dictGet (dictSet st k v) k = some v := by
  induction st with
  | nil => simp [dictSet, dictGet]
  | cons kv rest ih =>
      by_cases h : kv.1 = k
      · simp [dictSet, h, dictGet]
      · simp [dictSet, h, dictGet, ih]

theorem dictGet_dictSet_ne (st : Store) (k k' : String) (v : Int)
    (h : k' ≠ k) : dictGet (dictSet st k v) k' = dictGet st k' := by
  have h' : ¬ k = k' := fun e => h (Eq.symm e)
  induction st with
  | nil => simp [dictSet, dictGet, h']
  | cons kv rest ih =>
      by_cases hk : kv.1 = k
      · simp [dictSet, hk, dictGet, h']
      · simp [dictSet, hk, dictGet, ih]

theorem dictGet_dictDel_self (st : Store) (k : String) :
    dictGet (dictDel st k) k = none := by
  induction st with
  | nil => simp [dictDel, dictGet]
  | cons kv rest ih =>
      by_cases h : kv.1 = k
      · simpa [dictDel, List.filter_cons, h] using ih
      · simpa [dictDel, List.filter_cons, h, dictGet] using ih

theorem mem_of_dictGet (st : Store) (k : String) (v : Int)
    (h : dictGet st k = some v) : (k, v) ∈ st := by
  induction st with
  | nil => simp [dictGet] at h
  | cons kv rest ih =>
      by_cases hk : kv.1 = k
      · simp [dictGet, hk] at h
        have hkv : (k, v) = kv := by
          rw [← hk, ← h]
        rw [hkv]
        exact List.mem_cons_self _ _
      · simp [dictGet, hk] at h
        exact List.mem_cons_of_mem _ (ih h)

theorem dictGet_of_mem (st : Store) (k : String) (v : Int)
    (hn : nodupKeys st) (h : (k, v) ∈ st) : dictGet st k = some v := by
  induction st with
  | nil => simp at h
  | cons kv rest ih =>
      rw [nodupKeys, List.map_cons, List.nodup_cons] at hn
      rcases List.mem_cons.1 h with h1 | h1
      · rw [← h1]
        simp [dictGet]
      · have hk : kv.1 ≠ k := by
          intro e
          exact hn.1 (e ▸ (List.mem_map_of_mem Prod.fst h1))
        simp [dictGet, hk]
        exact ih hn.2 h1

theorem dictGet_eq_none_iff (st : Store) (k : String) :
    dictGet st k = none ↔ k ∉ st.map Prod.fst := by
  induction st with
  | nil => simp [dictGet]
  | cons kv rest ih =>
      by_cases hk : kv.1 = k
      · simp [dictGet, hk]
      · have hk' : ¬ k = kv.1 := fun e => hk (Eq.symm e)
        simp [dictGet, hk, hk', ih]

theorem mem_dictSet (st : Store) (k : String) (v : Int)
    (kv : String × Int) (h : kv ∈ dictSet st k v) :
    kv = (k, v) ∨ kv ∈ st := by
  induction st with
  | nil => simpa [dictSet] using h
  | cons hd rest ih =>
      by_cases hk : hd.1 = k
      · rw [dictSet] at h
        simp [hk] at h
        rcases h with h1 | h1
        · exact Or.inl h1
        · exact Or.inr (List.mem_cons_of_mem _ h1)
      · rw [dictSet] at h
        simp [hk] at h
        rcases h with h1 | h1
        · exact Or.inr (List.mem_cons.2 (Or.inl h1))
        · rcases ih h1 with h2 | h2
          · exact Or.inl h2
          · exact Or.inr (List.mem_cons_of_mem _ h2)

theorem mem_dictDel (st : Store) (k : String) (kv : String × Int)
    (h : kv ∈ dictDel st k) : kv ∈ st ∧ kv.1 ≠ k := by
  rw [dictDel] at h
  have := List.of_mem_filter h
  exact ⟨List.mem_of_mem_filter h, by simpa using this⟩

theorem perm_insertByKey (x : String × Int) (l : Store) :
    List.Perm (insertByKey x l) (x :: l) := by
  induction l with
  | nil => simp [insertByKey]
  | cons y ys ih =>
      rw [insertByKey]
      by_cases h : x.1 ≤ y.1
      · simp [h]
      · simp only [h, if_false]
        exact List.Perm.trans (List.Perm.cons y ih) (List.Perm.swap x y ys)

theorem perm_sortByKey (l : Store) : List.Perm (sortByKey l) l := by
  induction l with
  | nil => simp [sortByKey]
  | cons x xs ih =>
      rw [sortByKey]
      exact List.Perm.trans (perm_insertByKey x (sortByKey xs))
        (List.Perm.cons x ih)

theorem dictGet_perm (st st' : Store) (hp : List.Perm st st')
    (hn : nodupKeys st) (k : String) : dictGet st k = dictGet st' k := by
  have hn' : nodupKeys st' := ((hp.map Prod.fst).nodup_iff).1 hn
  cases h : dictGet st k with
  | none =>
      rw [dictGet_eq_none_iff] at h
      rw [eq_comm, dictGet_eq_none_iff]
      intro hmem
      exact h (((hp.map Prod.fst).mem_iff).2 hmem)
  | some v =>
      have := mem_of_dictGet st k v h
      exact (dictGet_of_mem st' k v hn' (hp.mem_iff.1 this)).symm

theorem dictGet_dictUpdate (kvs : List (String × Int)) :
    ∀ (d : Store) (k : String), nodupKeys kvs →
      dictGet (dictUpdate d kvs) k =
        ((dictGet kvs k).elim (dictGet d k) some) := by
  induction kvs with
  | nil => intro d k _; simp [dictUpdate, dictGet]
  | cons ab rest ih =>
      intro d k hn
      rw [nodupKeys, List.map_cons, List.nodup_cons] at hn
      rw [dictUpdate]
      rw [ih (dictSet d ab.1 ab.2) k hn.2]
      by_cases hk : ab.1 = k
      · subst hk
        have hrest : dictGet rest ab.1 = none := by
          rw [dictGet_eq_none_iff]
          exact hn.1
        simp [dictGet, hrest, dictGet_dictSet_self]
      · simp [dictGet, hk]
        cases h : dictGet rest k with
        | none => simp [dictGet_dictSet_ne d ab.1 k ab.2 fun e => hk e.symm]
        | some v => simp

example : strip "  apple " = "apple" := by decide
example : add_item [] "x" (.pyInt 0) = (.ok (), [("x", 0)]) := rfl
example :
    remove_item [("apple", 10)] "apple" (.pyInt 3) =
      (.ok (), [("apple", 7)]) := rfl
example :
    load_data [("a", 1)] (some (.pyDict [("apple", .pyStr "ten")])) =
      (.error "File format must be str -> int mapping", [("a", 1)]) := rfl
example :
    check_low_items [("apple", 7), ("banana", 2)] (.pyInt 5) =
      .ok ["banana"] := rfl

/-! ## Claim theorems -/

/-- C2: for a valid (nonempty after strip) item name and a nonnegative
integer quantity, `add_item` succeeds and a following `get_qty` on the
same name returns the quantity stored before the add (0 when the item
was absent) plus the added quantity. -/
theorem add_then_get (st : Store) (item : String) (qty : Int)
    (hitem : strip item ≠ "") (hqty : 0 ≤ qty) :
    (add_item st item (.pyInt qty)).1 = .ok () ∧
      get_qty (add_item st item (.pyInt qty)).2 item =
        .ok (dictGetD st item 0 + qty) := by
  have hadd : add_item st item (.pyInt qty) =
      (.ok (), dictSet st item (dictGetD st item 0 + qty)) := by
    rw [add_item, if_neg hitem]
    simp [isInstInt, toInt, not_lt.2 hqty]
  rw [hadd]
  refine ⟨rfl, ?_⟩
  rw [get_qty, if_neg hitem]
  show Except.ok (dictGetD (dictSet st item (dictGetD st item 0 + qty)) item 0) = _
  rw [dictGetD, dictGet_dictSet_self]
  rfl

theorem add_then_get_witness :
    strip "apple" ≠ "" ∧ (0 : Int) ≤ 10 ∧
      ((add_item [("apple", 3)] "apple" (.pyInt 10)).1 = .ok () ∧
        get_qty (add_item [("apple", 3)] "apple" (.pyInt 10)).2 "apple" =
          .ok (dictGetD [("apple", 3)] "apple" 0 + 10)) :=
  ⟨by decide, by decide,
    add_then_get [("apple", 3)] "apple" 10 (by decide) (by decide)⟩

/-- C5: removing at least the current quantity of a present item (with a
valid name, as every item name in a reachable store is) deletes its
entry entirely, and `get_qty` afterwards returns 0. -/
theorem remove_deletes (st : Store) (item : String) (q qty : Int)
    (hitem : strip item ≠ "") (hq : dictGet st item = some q)
    (hpos : 0 < qty) (hge : q ≤ qty) :
    (remove_item st item (.pyInt qty)).1 = .ok () ∧
      dictGet (remove_item st item (.pyInt qty)).2 item = none ∧
      get_qty (remove_item st item (.pyInt qty)).2 item = .ok 0 := by
  have hrem : remove_item st item (.pyInt qty) =
      (.ok (), dictDel (dictSet st item (q - qty)) item) := by
    rw [remove_item, if_neg hitem]
    have hmem : dictMem st item = true := by simp [dictMem, hq]
    have hgd : dictGetD st item 0 = q := by simp [dictGetD, hq]
    simp [isInstInt, toInt, not_le.2 hpos, hmem, hq, hgd, dictGetD,
      dictGet_dictSet_self, hge]
  rw [hrem]
  refine ⟨rfl, dictGet_dictDel_self _ _, ?_⟩
  rw [get_qty, if_neg hitem]
  show Except.ok (dictGetD (dictDel (dictSet st item (q - qty)) item) item 0) = _
  rw [dictGetD, dictGet_dictDel_self]
  rfl

theorem remove_deletes_witness :
    strip "apple" ≠ "" ∧ dictGet [("apple", 5)] "apple" = some 5 ∧
      (0 : Int) < 7 ∧ (5 : Int) ≤ 7 ∧
      ((remove_item [("apple", 5)] "apple" (.pyInt 7)).1 = .ok () ∧
        dictGet (remove_item [("apple", 5)] "apple" (.pyInt 7)).2 "apple" =
          none ∧
        get_qty (remove_item [("apple", 5)] "apple" (.pyInt 7)).2 "apple" =
          .ok 0) :=
  ⟨by decide, by decide, by decide, by decide,
    remove_deletes [("apple", 5)] "apple" 5 7 (by decide) (by decide)
      (by decide) (by decide)⟩

/-- C6: removing a valid item name that is absent from the store is a
no-op: no error is raised, no entry is created, the store is returned
unchanged. -/
theorem remove_absent_noop (st : Store) (item : String) (qty : Int)
    (hitem : strip item ≠ "") (habs : dictGet st item = none)
    (hpos : 0 < qty) :
    remove_item st item (.pyInt qty) = (.ok (), st) := by
  rw [remove_item, if_neg hitem]
  simp [isInstInt, toInt, not_le.2 hpos, dictMem, habs]

theorem remove_absent_noop_witness :
    strip "orange" ≠ "" ∧
      dictGet [("apple", 5)] "orange" = none ∧ (0 : Int) < 1 ∧
      remove_item [("apple", 5)] "orange" (.pyInt 1) =
        (.ok (), [("apple", 5)]) :=
  ⟨by decide, by decide, by decide,
    remove_absent_noop [("apple", 5)] "orange" 1 (by decide) (by decide)
      (by decide)⟩

/-- C8: loading from a path with no file clears the store to empty and
succeeds, whatever the store held before. -/
theorem load_missing_clears (st : Store) :
    load_data st none = (.ok (), []) := rfl

/-- C10: item names are stored untrimmed — stripping is used only to
validate non-emptiness.  For a name with surrounding whitespace around a
nonempty core, `add_item` keys the entry by the untrimmed string, the
lookup under the stripped name is untouched, and concretely
`get_qty` for `"apple"` after `add_item` of `"  apple "` into an empty
store returns 0. -/
theorem add_untrimmed_key (st : Store) (item : String) (qty : Int)
    (hitem : strip item ≠ "") (hdiff : strip item ≠ item)
    (hqty : 0 ≤ qty) :
    (add_item st item (.pyInt qty)).1 = .ok () ∧
      (add_item st item (.pyInt qty)).2 =
        dictSet st item (dictGetD st item 0 + qty) ∧
      dictGet (add_item st item (.pyInt qty)).2 (strip item) =
        dictGet st (strip item) ∧
      get_qty (add_item [] "  apple " (.pyInt 5)).2 "apple" = .ok 0 := by
  have hadd : add_item st item (.pyInt qty) =
      (.ok (), dictSet st item (dictGetD st item 0 + qty)) := by
    rw [add_item, if_neg hitem]
    simp [isInstInt, toInt, not_lt.2 hqty]
  rw [hadd]
  exact ⟨rfl, rfl, dictGet_dictSet_ne st item (strip item) _ hdiff, rfl⟩

theorem add_untrimmed_key_witness :
    strip "  apple " ≠ "" ∧ strip "  apple " ≠ "  apple " ∧
      (0 : Int) ≤ 5 ∧
      ((add_item [] "  apple " (.pyInt 5)).1 = .ok () ∧
        (add_item [] "  apple " (.pyInt 5)).2 =
          dictSet [] "  apple " (dictGetD [] "  apple " 0 + 5) ∧
        dictGet (add_item [] "  apple " (.pyInt 5)).2 (strip "  apple ") =
          dictGet [] (strip "  apple ") ∧
        get_qty (add_item [] "  apple " (.pyInt 5)).2 "apple" = .ok 0) :=
  ⟨by decide, by decide, by decide,
    add_untrimmed_key [] "  apple " 5 (by decide) (by decide) (by decide)⟩

/-- C7: for a store with pairwise distinct keys and a nonnegative
integer threshold, `check_low_items` succeeds and returns exactly the
names whose stored quantity is strictly below the threshold (so the
empty store yields the empty list); the operation reads the store and
returns only a list of names, mutating nothing. -/
theorem low_stock_exact (st : Store) (t : Int) (hkeys : nodupKeys st)
    (ht : 0 ≤ t) :
    ∃ l, check_low_items st (.pyInt t) = .ok l ∧
      ∀ name, name ∈ l ↔ ∃ q, dictGet st name = some q ∧ q < t := by
  have hc : check_low_items st (.pyInt t) =
      .ok ((st.filter (fun kv => kv.2 < t)).map Prod.fst) := by
    rw [check_low_items]
    simp [isInstInt, toInt, not_lt.2 ht]
  refine ⟨_, hc, fun name => ?_⟩
  constructor
  · intro hmem
    rcases List.mem_map.1 hmem with ⟨kv, hkv, hname⟩
    have hf := List.mem_filter.1 hkv
    refine ⟨kv.2, ?_, by simpa using hf.2⟩
    rw [← hname]
    exact dictGet_of_mem st kv.1 kv.2 hkeys hf.1
  · rintro ⟨q, hget, hlt⟩
    have hmem := mem_of_dictGet st name q hget
    refine List.mem_map.2 ⟨(name, q), ?_, rfl⟩
    exact List.mem_filter.2 ⟨hmem, by simpa using hlt⟩

theorem low_stock_exact_witness :
    nodupKeys [("apple", 7), ("banana", 2)] ∧ (0 : Int) ≤ 5 ∧
      ∃ l, check_low_items [("apple", 7), ("banana", 2)] (.pyInt 5) =
          .ok l ∧
        ∀ name, name ∈ l ↔
          ∃ q, dictGet [("apple", 7), ("banana", 2)] name = some q ∧
            q < 5 :=
  ⟨by decide, by decide,
    low_stock_exact [("apple", 7), ("banana", 2)] 5 (by decide) (by decide)⟩

/-- C9: `load_data` on an existing file whose parsed content is not an
object, or has a value failing the source's integer check
`isinstance(v, int)` (a check Python booleans pass, `bool` being a
subclass of `int`; a parsed JSON object's keys are strings by
construction), fails with the format error and returns the store
unchanged — the error is raised before `stock_data` is touched. -/
theorem load_invalid_format (st : Store) :
    (∀ v : PyVal, (∀ kvs, v ≠ .pyDict kvs) →
        load_data st (some v) =
          (.error "Invalid file format: not an object", st)) ∧
    (∀ (kvs : List (String × PyVal)) (kv : String × PyVal), kv ∈ kvs →
        isInstInt kv.2 = false →
        load_data st (some (.pyDict kvs)) =
          (.error "File format must be str -> int mapping", st)) := by
  constructor
  · intro v hv
    cases v with
    | pyDict kvs => exact absurd rfl (hv kvs)
    | pyNone => rfl
    | pyBool b => rfl
    | pyInt n => rfl
    | pyFloat => rfl
    | pyStr s => rfl
    | pyList xs => rfl
  · intro kvs kv hmem hfalse
    have hall : kvs.all (fun kv => isInstInt kv.2) = false := by
      cases h : kvs.all (fun kv => isInstInt kv.2) with
      | false => rfl
      | true =>
          have := (List.all_eq_true.1 h) kv hmem
          rw [hfalse] at this
          cases this
    simp [load_data, hall]

theorem load_invalid_format_witness :
    load_data [("a", 1)] (some (.pyStr "nope")) =
        (.error "Invalid file format: not an object", [("a", 1)]) ∧
      load_data [("a", 1)] (some (.pyDict [("apple", .pyStr "ten")])) =
        (.error "File format must be str -> int mapping", [("a", 1)]) :=
  ⟨(load_invalid_format [("a", 1)]).1 (.pyStr "nope")
      (fun _ h => PyVal.noConfusion h),
    (load_invalid_format [("a", 1)]).2 [("apple", .pyStr "ten")]
      ("apple", .pyStr "ten") (List.mem_cons_self _ _) rfl⟩

/-- C3: for a store that is a mapping (pairwise distinct keys) from
valid item names to nonnegative quantities, `save_data` followed by
`load_data` succeeds and restores a store with exactly the same
key/value mapping, whatever the store held at load time. -/
theorem save_load_roundtrip (cur st : Store) (hkeys : nodupKeys st)
    (hnames : ∀ kv ∈ st, strip kv.1 ≠ "") (hvals : nonnegStore st) :
    (load_data cur (some (save_data st))).1 = .ok () ∧
      ∀ k, dictGet (load_data cur (some (save_data st))).2 k =
        dictGet st k := by
  have hperm := perm_sortByKey st
  have hkeys' : nodupKeys (sortByKey st) :=
    ((hperm.map Prod.fst).nodup_iff).2 hkeys
  have hmaps : ((sortByKey st).map
      (fun kv => (kv.1, PyVal.pyInt kv.2))).map
        (fun kv => (kv.1, toInt kv.2)) = sortByKey st := by
    rw [List.map_map]
    have hco : ((fun kv : String × PyVal => (kv.1, toInt kv.2)) ∘
        (fun kv : String × Int => (kv.1, PyVal.pyInt kv.2))) = id := rfl
    rw [hco, List.map_id]
  have hload : load_data cur (some (save_data st)) =
      (.ok (), dictUpdate [] (sortByKey st)) := by
    rw [save_data, load_data]
    have hall : ((sortByKey st).map
        (fun kv => (kv.1, PyVal.pyInt kv.2))).all
          (fun kv => isInstInt kv.2) = true := by
      rw [List.all_eq_true]
      intro x hmem
      rcases List.mem_map.1 hmem with ⟨kv, _, hkv⟩
      rw [← hkv]
      rfl
    rw [if_pos hall, hmaps]
  refine ⟨by rw [hload], fun k => ?_⟩
  rw [hload]
  show dictGet (dictUpdate [] (sortByKey st)) k = dictGet st k
  rw [dictGet_dictUpdate (sortByKey st) [] k hkeys']
  rw [dictGet_perm (sortByKey st) st hperm hkeys' k]
  cases dictGet st k with
  | none => simp [dictGet]
  | some v => simp

theorem save_load_roundtrip_witness :
    nodupKeys [("banana", 2), ("apple", 7)] ∧
      (∀ kv ∈ ([("banana", 2), ("apple", 7)] : Store),
        strip kv.1 ≠ "") ∧
      nonnegStore [("banana", 2), ("apple", 7)] ∧
      ((load_data [("x", 1)]
          (some (save_data [("banana", 2), ("apple", 7)]))).1 = .ok () ∧
        ∀ k, dictGet (load_data [("x", 1)]
            (some (save_data [("banana", 2), ("apple", 7)]))).2 k =
          dictGet [("banana", 2), ("apple", 7)] k) :=
  ⟨by decide, by decide, by decide,
    save_load_roundtrip [("x", 1)] [("banana", 2), ("apple", 7)]
      (by decide) (by decide) (by decide)⟩

/-- C1 counterexample: starting from the empty store (which satisfies
the invariant), `add_item` with quantity 0 creates an entry with
quantity 0, so `add_item` does not preserve the invariant that every
stored quantity is strictly positive — the zero entry is retained, not
deleted. -/
theorem add_zero_retains_zero_entry :
    posStore [] ∧
      add_item [] "x" (.pyInt 0) = (.ok (), [("x", 0)]) ∧
      ¬ posStore [("x", 0)] := by
  refine ⟨by decide, rfl, ?_⟩
  intro h
  have := h ("x", 0) (List.mem_cons_self _ _)
  simp at this

/-- C1 amended: `remove_item` preserves the invariant that every stored
quantity is strictly positive (a would-be `≤ 0` entry is deleted);
`add_item` preserves only nonnegativity, since quantity 0 may create or
retain a zero entry; and `load_data` installs the file's integer values
verbatim, so a file value of `-5` is stored as `-5`. -/
theorem store_invariant_amended :
    (∀ (st : Store) (item : String) (qty : PyVal),
      posStore st → posStore (remove_item st item qty).2) ∧
    (∀ (st : Store) (item : String) (qty : PyVal),
      nonnegStore st → nonnegStore (add_item st item qty).2) ∧
    (∀ st : Store,
      (load_data st (some (.pyDict [("a", .pyInt (-5))]))).2 =
        [("a", -5)]) := by
  refine ⟨?_, ?_, fun st => rfl⟩
  · intro st item qty hpos
    rw [remove_item]
    split
    · exact hpos
    split
    · exact hpos
    split
    · exact hpos
    show posStore
      (if dictGetD (dictSet st item (dictGetD st item 0 - toInt qty))
          item 0 ≤ 0 then
        ((Except.ok (), dictDel
          (dictSet st item (dictGetD st item 0 - toInt qty)) item) :
            Except String Unit × Store)
      else (Except.ok (),
        dictSet st item (dictGetD st item 0 - toInt qty))).2
    split
    · intro kv hkv
      have hm := mem_dictDel _ _ _ hkv
      rcases mem_dictSet _ _ _ _ hm.1 with h | h
      · exact absurd (congrArg Prod.fst h) hm.2
      · exact hpos kv h
    · rename_i hgt
      intro kv hkv
      rcases mem_dictSet _ _ _ _ hkv with h | h
      · rw [h]
        rw [dictGetD, dictGet_dictSet_self] at hgt
        simpa using lt_of_not_ge fun hle => hgt (by simpa using hle)
      · exact hpos kv h
  · intro st item qty hnn
    rw [add_item]
    split
    · exact hnn
    split
    · exact hnn
    split
    · exact hnn
    rename_i hqty
    intro kv hkv
    rcases mem_dictSet _ _ _ _ hkv with h | h
    · rw [h]
      have h1 : 0 ≤ dictGetD st item 0 := by
        cases hg : dictGet st item with
        | none => simp [dictGetD, hg]
        | some v =>
            have := hnn (item, v) (mem_of_dictGet st item v hg)
            simpa [dictGetD, hg] using this
      have h2 : 0 ≤ toInt qty := le_of_not_lt hqty
      simpa using add_nonneg h1 h2
    · exact hnn kv h

theorem store_invariant_amended_witness :
    posStore [("apple", 5)] ∧
      posStore (remove_item [("apple", 5)] "apple" (.pyInt 2)).2 :=
  ⟨by decide,
    store_invariant_amended.1 [("apple", 5)] "apple" (.pyInt 2)
      (by decide)⟩

/-- C4: every invalid input raises and leaves the store exactly as it
was: an item name empty after stripping passed to `add_item`,
`remove_item` or `get_qty`; a quantity failing `isinstance(·, int)` or a
negative integer quantity passed to `add_item`; a quantity failing
`isinstance(·, int)` or a non-positive integer quantity passed to
`remove_item`; and a threshold failing `isinstance(·, int)` or a
negative integer threshold passed to `check_low_items` (`get_qty` and
`check_low_items` return no store because the source never writes to
`stock_data` in them). -/
theorem invalid_inputs_raise :
    (∀ (st : Store) (item : String) (qty : PyVal), strip item = "" →
        isErr (add_item st item qty).1 = true ∧
          (add_item st item qty).2 = st) ∧
    (∀ (st : Store) (item : String) (qty : PyVal),
        isInstInt qty = false →
        isErr (add_item st item qty).1 = true ∧
          (add_item st item qty).2 = st) ∧
    (∀ (st : Store) (item : String) (q : Int), q < 0 →
        isErr (add_item st item (.pyInt q)).1 = true ∧
          (add_item st item (.pyInt q)).2 = st) ∧
    (∀ (st : Store) (item : String) (qty : PyVal), strip item = "" →
        isErr (remove_item st item qty).1 = true ∧
          (remove_item st item qty).2 = st) ∧
    (∀ (st : Store) (item : String) (qty : PyVal),
        isInstInt qty = false →
        isErr (remove_item st item qty).1 = true ∧
          (remove_item st item qty).2 = st) ∧
    (∀ (st : Store) (item : String) (q : Int), q ≤ 0 →
        isErr (remove_item st item (.pyInt q)).1 = true ∧
          (remove_item st item (.pyInt q)).2 = st) ∧
    (∀ (st : Store) (item : String), strip item = "" →
        isErr (get_qty st item) = true) ∧
    (∀ (st : Store) (t : PyVal), isInstInt t = false →
        isErr (check_low_items st t) = true) ∧
    (∀ (st : Store) (t : Int), t < 0 →
        isErr (check_low_items st (.pyInt t)) = true) := by
  refine ⟨?_, ?_, ?_, ?_, ?_, ?_, ?_, ?_, ?_⟩
  · intro st item qty h
    simp [add_item, h, isErr]
  · intro st item qty h
    by_cases h1 : strip item = ""
    · simp [add_item, h1, isErr]
    · simp [add_item, h1, h, isErr]
  · intro st item q h
    by_cases h1 : strip item = ""
    · simp [add_item, h1, isErr]
    · simp [add_item, h1, isInstInt, toInt, h, isErr]
  · intro st item qty h
    simp [remove_item, h, isErr]
  · intro st item qty h
    by_cases h1 : strip item = ""
    · simp [remove_item, h1, isErr]
    · simp [remove_item, h1, h, isErr]
  · intro st item q h
    by_cases h1 : strip item = ""
    · simp [remove_item, h1, isErr]
    · simp [remove_item, h1, isInstInt, toInt, h, isErr]
  · intro st item h
    simp [get_qty, h, isErr]
  · intro st t h
    simp [check_low_items, h, isErr]
  · intro st t h
    simp [check_low_items, isInstInt, toInt, h, isErr]

theorem invalid_inputs_raise_witness :
    (isErr (add_item [("a", 1)] "  " (.pyInt 2)).1 = true ∧
      (add_item [("a", 1)] "  " (.pyInt 2)).2 = [("a", 1)]) ∧
    (isErr (add_item [("a", 1)] "b" (.pyStr "x")).1 = true ∧
      (add_item [("a", 1)] "b" (.pyStr "x")).2 = [("a", 1)]) ∧
    (isErr (add_item [("a", 1)] "b" (.pyInt (-1))).1 = true ∧
      (add_item [("a", 1)] "b" (.pyInt (-1))).2 = [("a", 1)]) ∧
    (isErr (remove_item [("a", 1)] "" (.pyInt 2)).1 = true ∧
      (remove_item [("a", 1)] "" (.pyInt 2)).2 = [("a", 1)]) ∧
    (isErr (remove_item [("a", 1)] "b" .pyNone).1 = true ∧
      (remove_item [("a", 1)] "b" .pyNone).2 = [("a", 1)]) ∧
    (isErr (remove_item [("a", 1)] "b" (.pyInt 0)).1 = true ∧
      (remove_item [("a", 1)] "b" (.pyInt 0)).2 = [("a", 1)]) ∧
    isErr (get_qty [("a", 1)] " ") = true ∧
    isErr (check_low_items [("a", 1)] .pyFloat) = true ∧
    isErr (check_low_items [("a", 1)] (.pyInt (-3))) = true :=
  ⟨invalid_inputs_raise.1 [("a", 1)] "  " (.pyInt 2) (by decide),
    invalid_inputs_raise.2.1 [("a", 1)] "b" (.pyStr "x") rfl,
    invalid_inputs_raise.2.2.1 [("a", 1)] "b" (-1) (by decide),
    invalid_inputs_raise.2.2.2.1 [("a", 1)] "" (.pyInt 2) (by decide),
    invalid_inputs_raise.2.2.2.2.1 [("a", 1)] "b" .pyNone rfl,
    invalid_inputs_raise.2.2.2.2.2.1 [("a", 1)] "b" 0 (by decide),
    invalid_inputs_raise.2.2.2.2.2.2.1 [("a", 1)] " " (by decide),
    invalid_inputs_raise.2.2.2.2.2.2.2.1 [("a", 1)] .pyFloat rfl,
    invalid_inputs_raise.2.2.2.2.2.2.2.2 [("a", 1)] (-3) (by decide)⟩
